import Mathlib

/-!
Verification of the OpenClaw Firebase relay pipeline
(`extensions/firebase/src/respond.ts`, `llm-client.ts`, `monitor.ts`).

The TypeScript sources are shallowly embedded below: pure functions become
Lean functions, the HTTP/stream environment becomes explicit input data
(fetch outcomes, stream read events, request-body chunk events), and
JavaScript exceptions become `Except String`.  The JavaScript runtime's
`JSON.parse` is modelled by a small executable recursive-descent parser over
the JSON subset the wire protocol uses (objects, arrays, strings, integers,
booleans, null); JS truthiness and property access (including the `TypeError`
raised by reading a property of `null`) are modelled explicitly.
-/

namespace OpenClaw

/-- JSON values as produced by the JavaScript runtime on `JSON.parse`. -/
inductive Json where
  | null
  | bool (b : Bool)
  | num (n : Int)
  | str (s : String)
  | arr (elems : List Json)
  | obj (fields : List (String × Json))

/-- Skip JSON whitespace. -/
def skipWs : List Char → List Char
  | [] => []
  | c :: rest =>
    if c = ' ' || c = '\n' || c = '\t' || c = '\r' then skipWs rest else c :: rest

/-- Translate a JSON single-character string escape (the `\uXXXX` form is
not needed by the wire frames). -/
def escChar (c : Char) : Option Char :=
  if c = 'n' then some (Char.ofNat 10)
  else if c = 't' then some (Char.ofNat 9)
  else if c = 'r' then some (Char.ofNat 13)
  else if c = 'b' then some (Char.ofNat 8)
  else if c = 'f' then some (Char.ofNat 12)
  else if c = '"' || c = '\\' || c = '/' then some c
  else none

/-- Parse the remainder of a JSON string (after the opening quote), returning
the decoded characters and the input following the closing quote. -/
def parseStrChars : List Char → Option (List Char × List Char)
  | [] => none
  | '\\' :: rest =>
    match rest with
    | [] => none
    | e :: rest2 =>
      match escChar e with
      | none => none
      | some c => (parseStrChars rest2).map (fun p => (c :: p.1, p.2))
  | c :: rest =>
    if c = '"' then some ([], rest)
    else (parseStrChars rest).map (fun p => (c :: p.1, p.2))

/-- Take a maximal run of decimal digits. -/
def takeDigits : List Char → (List Char × List Char)
  | [] => ([], [])
  | c :: rest =>
    if c.isDigit then
      let p := takeDigits rest
      (c :: p.1, p.2)
    else ([], c :: rest)

/-- Decimal digits to a natural number. -/
def digitsToNat (ds : List Char) : Nat :=
  ds.foldl (fun acc c => acc * 10 + (c.toNat - 48)) 0

/-- Parse a JSON integer (the wire frames only ever carry integers). -/
def parseIntChars : List Char → Option (Int × List Char)
  | '-' :: rest =>
    match takeDigits rest with
    | ([], _) => none
    | (ds, rem) => some (-(digitsToNat ds : Int), rem)
  | cs =>
    match takeDigits cs with
    | ([], _) => none
    | (ds, rem) => some ((digitsToNat ds : Int), rem)

mutual

/-- Fueled recursive-descent JSON value parser. -/
def parseVal : Nat → List Char → Option (Json × List Char)
  | 0, _ => none
  | Nat.succ fuel, cs =>
    match skipWs cs with
    | [] => none
    | c :: rest =>
      if c = '"' then
        (parseStrChars rest).map (fun p => (Json.str (String.mk p.1), p.2))
      else if c = Char.ofNat 123 then
        match skipWs rest with
        | [] => none
        | c1 :: rest1 =>
          if c1 = Char.ofNat 125 then some (Json.obj [], rest1)
          else (parseObjRest fuel (c1 :: rest1)).map (fun p => (Json.obj p.1, p.2))
      else if c = '[' then
        match skipWs rest with
        | ']' :: rest1 => some (Json.arr [], rest1)
        | cs1 => (parseArrRest fuel cs1).map (fun p => (Json.arr p.1, p.2))
      else if c = 'n' then
        match rest with
        | 'u' :: 'l' :: 'l' :: rem => some (Json.null, rem)
        | _ => none
      else if c = 't' then
        match rest with
        | 'r' :: 'u' :: 'e' :: rem => some (Json.bool true, rem)
        | _ => none
      else if c = 'f' then
        match rest with
        | 'a' :: 'l' :: 's' :: 'e' :: rem => some (Json.bool false, rem)
        | _ => none
      else
        (parseIntChars (c :: rest)).map (fun p => (Json.num p.1, p.2))

/-- Parse the members of a JSON object, positioned at the first key. -/
def parseObjRest : Nat → List Char → Option (List (String × Json) × List Char)
  | 0, _ => none
  | Nat.succ fuel, cs =>
    match cs with
    | [] => none
    | c :: rest =>
      if c = '"' then
        match parseStrChars rest with
        | none => none
        | some (keyChars, afterKey) =>
          match skipWs afterKey with
          | ':' :: afterColon =>
            match parseVal fuel afterColon with
            | none => none
            | some (v, afterVal) =>
              match skipWs afterVal with
              | ',' :: afterComma =>
                match parseObjRest fuel (skipWs afterComma) with
                | none => none
                | some (fields, rem) => some ((String.mk keyChars, v) :: fields, rem)
              | c2 :: rem2 =>
                if c2 = Char.ofNat 125 then some ([(String.mk keyChars, v)], rem2)
                else none
              | [] => none
          | _ => none
      else none

/-- Parse the elements of a JSON array, positioned at the first element. -/
def parseArrRest : Nat → List Char → Option (List Json × List Char)
  | 0, _ => none
  | Nat.succ fuel, cs =>
    match parseVal fuel cs with
    | none => none
    | some (v, afterVal) =>
      match skipWs afterVal with
      | ',' :: afterComma => (parseArrRest fuel afterComma).map (fun p => (v :: p.1, p.2))
      | ']' :: rem => some ([v], rem)
      | _ => none

end

/-- Model of the JavaScript runtime's `JSON.parse`: parses a whole string as a
single JSON value, raising (as `Except.error`) a parser message otherwise. -/
def parseJson (s : String) : Except String Json :=
  match parseVal (2 * s.length + 4) s.toList with
  | some (v, rest) =>
    if (skipWs rest).isEmpty then Except.ok v
    else Except.error ("Unexpected non-whitespace character after JSON data: " ++ s)
  | none => Except.error ("Unexpected token in JSON: " ++ s)

/-- Property lookup that never throws: `undefined` (`none`) on anything that
is not an object with that key.  This matches JS `a?.k`, and plain `a.k` for
non-null `a`. -/
def Json.getProp : Json → String → Option Json
  | Json.obj fields, k => fields.lookup k
  | _, _ => none

/-- Property access as JS evaluates `a.k`: reading a property of `null`
throws a `TypeError`. -/
def jsGetProp (v : Json) (k : String) : Except String (Option Json) :=
  match v with
  | Json.null =>
    Except.error ("TypeError: Cannot read properties of null (reading " ++ k ++ ")")
  | Json.obj fields => Except.ok (fields.lookup k)
  | _ => Except.ok none

/-- Index 0 of a JSON array, as in `choices?.[0]`. -/
def Json.getIdx0 : Json → Option Json
  | Json.arr (x :: _) => some x
  | _ => none

/-- JS truthiness of a possibly-undefined value. -/
def jsTruthy : Option Json → Bool
  | none => false
  | some Json.null => false
  | some (Json.bool b) => b
  | some (Json.num n) => n ≠ 0
  | some (Json.str s) => s ≠ ""
  | some (Json.arr _) => true
  | some (Json.obj _) => true

/-- JS string coercion of a possibly-undefined value (template literals,
`+=` on a string). -/
def jsToStr : Option Json → String
  | some (Json.str s) => s
  | some (Json.num n) => toString n
  | some (Json.bool b) => if b then "true" else "false"
  | some Json.null => "null"
  | some (Json.arr _) => ""
  | some (Json.obj _) => "[object Object]"
  | none => "undefined"

/-- Numeric field extraction: the wire usage counters are JSON integers. -/
def jsNum : Option Json → Option Int
  | some (Json.num n) => some n
  | _ => none

/-- JS strict equality `v === lit` between a possibly-undefined value and a
string literal. -/
def jsIsStr (v : Option Json) (lit : String) : Bool :=
  match v with
  | some (Json.str s) => s = lit
  | _ => false

/-- Does `sub` occur as a contiguous sublist of the second argument? -/
def hasSubList (sub : List Char) : List Char → Bool
  | [] => sub.isEmpty
  | c :: rest => sub.isPrefixOf (c :: rest) || hasSubList sub rest

/-- JS `String.prototype.includes`: `strIncludes s sub` is `s.includes(sub)`. -/
def strIncludes (s sub : String) : Bool :=
  hasSubList sub.toList s.toList

/-- JS `String.prototype.toLowerCase` over the ASCII range. -/
def strToLower (s : String) : String :=
  String.mk (s.toList.map Char.toLower)

/-- JS `String.prototype.trim`: strip leading and trailing whitespace. -/
def jsTrim (s : String) : String :=
  String.mk (((s.toList.dropWhile Char.isWhitespace).reverse.dropWhile
    Char.isWhitespace).reverse)

/-- Embedding of `isBillingError` (`respond.ts`): falsy (absent or empty)
messages are not billing errors, otherwise the lowercased message is matched
against the billing substrings. -/
def isBillingError : Option String → Bool
  | none => false
  | some m =>
    if m = "" then false
    else
      let lower := strToLower m
      strIncludes lower "402" ||
      strIncludes lower "insufficient credits" ||
      strIncludes lower "insufficient_credits" ||
      strIncludes lower "billing" ||
      strIncludes lower "payment required"

/-- The billing keyword table as the specification lists it. -/
def billingKeywords : List String :=
  ["402", "insufficient credits", "insufficient_credits", "billing", "payment required"]

/-! SSE stream reassembly (`llm-client.ts`, `parseSSEStream`). -/

/-- Accumulated stream state: assembled text and the two usage counters
(`undefined` modelled as `none`). -/
structure SSEAcc where
  content : String
  inputTokens : Option Int
  outputTokens : Option Int
deriving Repr, DecidableEq

/-- Initial accumulator. -/
def sseInit : SSEAcc := ⟨"", none, none⟩

/-- The `data: ` frame marker. -/
def dataTag : List Char := "data: ".toList

/-- One parsed frame applied to the accumulator: the six `if` branches of the
stream loop, in source order, each testing the frame and updating the state
cumulatively. -/
def processDataLine (acc : SSEAcc) (data : Json) : SSEAcc :=
  let typeV := data.getProp "type"
  let deltaTextV := (data.getProp "delta").bind (fun d => d.getProp "text")
  let usageV := data.getProp "usage"
  let msgUsageV := (data.getProp "message").bind (fun m => m.getProp "usage")
  let choiceContentV :=
    (((data.getProp "choices").bind Json.getIdx0).bind
      (fun c0 => c0.getProp "delta")).bind (fun d => d.getProp "content")
  let acc1 :=
    if jsIsStr typeV "content_block_delta" && jsTruthy deltaTextV then
      { acc with content := acc.content ++ jsToStr deltaTextV }
    else acc
  let acc2 :=
    if jsTruthy deltaTextV && !(jsTruthy typeV) then
      { acc1 with content := acc1.content ++ jsToStr deltaTextV }
    else acc1
  let acc3 :=
    if jsIsStr typeV "message_delta" && jsTruthy usageV then
      { acc2 with outputTokens := jsNum (usageV.bind (fun u => u.getProp "output_tokens")) }
    else acc2
  let acc4 :=
    if jsIsStr typeV "message_start" && jsTruthy msgUsageV then
      { acc3 with inputTokens := jsNum (msgUsageV.bind (fun u => u.getProp "input_tokens")) }
    else acc3
  let acc5 :=
    if jsTruthy choiceContentV then
      { acc4 with content := acc4.content ++ jsToStr choiceContentV }
    else acc4
  let acc6 :=
    if jsTruthy usageV then
      { acc5 with
          inputTokens := jsNum (usageV.bind (fun u => u.getProp "prompt_tokens")),
          outputTokens := jsNum (usageV.bind (fun u => u.getProp "completion_tokens")) }
    else acc5
  acc6

/-- One complete line of the stream: non-`data: ` lines and the `[DONE]`
sentinel are skipped; the JSON payload is parsed, a parse failure (or the
`TypeError` from touching a `null` payload) is swallowed by the
surrounding `try`. -/
def processLine (acc : SSEAcc) (line : List Char) : SSEAcc :=
  if !(dataTag.isPrefixOf line) then acc
  else if line = "data: [DONE]".toList then acc
  else
    match parseJson (String.mk (line.drop 6)) with
    | Except.error _ => acc
    | Except.ok Json.null => acc
    | Except.ok data => processDataLine acc data

/-- JS `String.prototype.split` on a single newline (the result is never
empty, so consing onto its head is total). -/
def splitNl : List Char → List (List Char)
  | [] => [[]]
  | c :: rest =>
    if c = '\n' then [] :: splitNl rest
    else (c :: (splitNl rest).headD []) :: (splitNl rest).tail

/-- One `reader.read()` chunk: append to the line buffer, interpret every
complete line, keep the trailing incomplete line buffered. -/
def processChunk : SSEAcc × List Char → List Char → SSEAcc × List Char
  | (acc, buffer), chunk =>
    let ls := splitNl (buffer ++ chunk)
    (ls.dropLast.foldl processLine acc, ls.getLastD [])

/-- Fold the whole chunked stream through the loop. -/
def runChunks (st : SSEAcc × List Char) (chunks : List (List Char)) : SSEAcc × List Char :=
  chunks.foldl processChunk st

/-- After the stream closes, the still-buffered partial `data:` line gets one
last parse attempt: only the plain-delta and choice-list branches run. -/
def finishBuffer : SSEAcc × List Char → SSEAcc
  | (acc, buffer) =>
    if dataTag.isPrefixOf buffer && buffer ≠ "data: [DONE]".toList then
      match parseJson (String.mk (buffer.drop 6)) with
      | Except.error _ => acc
      | Except.ok Json.null => acc
      | Except.ok data =>
        let deltaTextV := (data.getProp "delta").bind (fun d => d.getProp "text")
        let choiceContentV :=
          (((data.getProp "choices").bind Json.getIdx0).bind
            (fun c0 => c0.getProp "delta")).bind (fun d => d.getProp "content")
        let acc1 :=
          if jsTruthy deltaTextV then
            { acc with content := acc.content ++ jsToStr deltaTextV }
          else acc
        if jsTruthy choiceContentV then
          { acc1 with content := acc1.content ++ jsToStr choiceContentV }
        else acc1
    else acc

/-- Usage counters of a successful completion (absent unless at least one
counter was observed). -/
structure LlmUsage where
  inputTokens : Option Int
  outputTokens : Option Int
deriving Repr, DecidableEq

/-- `LlmResult`: the completion client's outcome variant. -/
inductive LlmResult where
  | success (content : String) (usage : Option LlmUsage)
  | failure (errMsg : String) (isBilling : Bool) (statusCode : Option Nat)
deriving Repr, DecidableEq

/-- The response stream handed to `parseSSEStream`: whether a body reader
exists and the sequence of `reader.read()` outcomes (a chunk, or a thrown
transport error). -/
structure StreamedResponse where
  hasBody : Bool
  reads : List (Except String String)

/-- Drain the reader: the first thrown read error propagates. -/
def chunkEvents : List (Except String String) → Except String (List String)
  | [] => Except.ok []
  | Except.ok c :: rest => (chunkEvents rest).map (fun l => c :: l)
  | Except.error e :: _ => Except.error e

/-- Assemble a fully-read stream into a success result. -/
def sseOutcome (chunks : List String) : LlmResult :=
  let acc := finishBuffer (runChunks (sseInit, []) (chunks.map String.toList))
  LlmResult.success acc.content
    (if acc.inputTokens.isSome || acc.outputTokens.isSome then
      some ⟨acc.inputTokens, acc.outputTokens⟩
    else none)

/-- Embedding of `parseSSEStream`: a missing body is an in-band failure; a
thrown read error propagates (`Except.error`) to the caller's catch. -/
def parseSSEStream (resp : StreamedResponse) : Except String LlmResult :=
  if !resp.hasBody then Except.ok (LlmResult.failure "No response body" false none)
  else (chunkEvents resp.reads).map sseOutcome

/-! The completion client boundary (`llm-client.ts`, `callLlmProxy`). -/

/-- One conversation turn. -/
structure LlmMessage where
  role : String
  content : String
deriving Repr, DecidableEq

/-- `LlmRequestOptions` with its optional fields. -/
structure LlmRequestOptions where
  model : Option String
  maxTokens : Option Nat
  messages : List LlmMessage
deriving Repr, DecidableEq

/-- The destructuring default for `model`. -/
def defaultLlmModel : String := "claude-haiku-4-5-20251001"

/-- The destructuring default for `maxTokens`. -/
def defaultMaxTokens : Nat := 4096

/-- The model identifier the outbound generation request carries. -/
def requestedModel (o : LlmRequestOptions) : String :=
  o.model.getD defaultLlmModel

/-- The `fetch` response on the generation call: HTTP status, the body text
(consulted via `response.json()` on the error path) and the body stream
(consulted on the success path). -/
structure FetchResponse where
  status : Nat
  bodyText : String
  stream : StreamedResponse

/-- JS `Response.ok`: status in the 2xx range. -/
def respOk (status : Nat) : Bool := 200 ≤ status && status ≤ 299

/-- The `error.message` string of a JSON error body, when the body parses to
a non-null value carrying one. -/
def jsonErrorMessageField (s : String) : Option String :=
  match parseJson s with
  | Except.error _ => none
  | Except.ok Json.null => none
  | Except.ok body =>
    match (body.getProp "error").bind (fun e => e.getProp "message") with
    | some (Json.str m) => some m
    | _ => none

/-- The human-readable message for a non-2xx generation response: the JSON
error body's message when present and truthy, otherwise the fallback. -/
def llmProxyErrorMessage (resp : FetchResponse) : String :=
  match jsonErrorMessageField resp.bodyText with
  | some m => if m = "" then "LLM request failed: " ++ toString resp.status else m
  | none => "LLM request failed: " ++ toString resp.status

/-- Embedding of `callLlmProxy`: the argument is the outcome of the `fetch`
call (a thrown transport error, or a response).  Every failure is captured
into `LlmResult.failure`; nothing escapes the boundary. -/
def callLlmProxy (fetchResult : Except String FetchResponse) : LlmResult :=
  match fetchResult with
  | Except.error e => LlmResult.failure e (isBillingError (some e)) none
  | Except.ok resp =>
    if !(respOk resp.status) then
      let msg := llmProxyErrorMessage resp
      LlmResult.failure msg (resp.status == 402 || isBillingError (some msg))
        (some resp.status)
    else
      match parseSSEStream resp.stream with
      | Except.ok r => r
      | Except.error e => LlmResult.failure e (isBillingError (some e)) none

/-! The delivery client (`respond.ts`, `sendResponse` and the two canned
variants) and the per-trigger pipeline (`monitor.ts`, `processMessage`). -/

/-- `VmResponseRequest.metadata`. -/
structure VmMetadata where
  errorType : Option String
  action : Option String
  model : Option String
  tokens : Option Int
deriving Repr, DecidableEq

/-- The App Server's HTTP response to the delivery POST. -/
structure AppServerHttpResponse where
  status : Nat
  bodyText : String

/-- Whether the parsed ack body carries `status === "saved"`. -/
def ackStatusSaved (resp : AppServerHttpResponse) : Bool :=
  match parseJson resp.bodyText with
  | Except.error _ => false
  | Except.ok ack =>
    match jsGetProp ack "status" with
    | Except.error _ => false
    | Except.ok v => jsIsStr v "saved"

/-- Embedding of `sendResponse`, as a function of the App Server's response:
`Except.error` is the thrown delivery failure. -/
def sendResponseOutcome (resp : AppServerHttpResponse) : Except String Unit :=
  if !(respOk resp.status) then
    Except.error ("Failed to send response to App Server: " ++ toString resp.status
      ++ " - " ++ resp.bodyText)
  else
    match parseJson resp.bodyText with
    | Except.error e => Except.error e
    | Except.ok ack =>
      match jsGetProp ack "status" with
      | Except.error e => Except.error e
      | Except.ok v =>
        if jsIsStr v "saved" then Except.ok ()
        else Except.error ("Unexpected response status: " ++ jsToStr v)

/-- One attempted delivery POST: correlation id, content, metadata. -/
inductive DeliveryCall where
  | attempt (messageId : String) (content : String) (metadata : Option VmMetadata)
deriving Repr, DecidableEq

/-- The canned billing message of `sendBillingErrorResponse`. -/
def billingErrorContent : String :=
  "You\x27ve run out of credits! Tap below to purchase more."

/-- The canned generic message (default argument of `sendErrorResponse`). -/
def genericErrorContent : String :=
  "Sorry, something went wrong. Please try again."

/-- The delivery issued by `sendBillingErrorResponse`. -/
def billingDelivery (mid : String) : DeliveryCall :=
  DeliveryCall.attempt mid billingErrorContent
    (some ⟨some "billing", some "purchase_credits", none, none⟩)

/-- The delivery issued by `sendErrorResponse` with its default message. -/
def genericDelivery (mid : String) : DeliveryCall :=
  DeliveryCall.attempt mid genericErrorContent (some ⟨some "error", none, none, none⟩)

/-- The success delivery of `processMessage`: the metadata reports the fixed
model string and the outcome's output-token count. -/
def successDelivery (mid content : String) (usage : Option LlmUsage) : DeliveryCall :=
  DeliveryCall.attempt mid content
    (some ⟨none, none, some "claude-sonnet-4-20250514", usage.bind LlmUsage.outputTokens⟩)

/-- Embedding of `processMessage` (`monitor.ts`): the sequence of delivery
attempts made for one validated trigger, given the completion outcome. -/
def processMessage (mid : String) (result : LlmResult) : List DeliveryCall :=
  match result with
  | LlmResult.failure _ isBilling _ =>
    if isBilling then [billingDelivery mid] else [genericDelivery mid]
  | LlmResult.success content usage => [successDelivery mid content usage]

/-- `VmTriggerRequest` after validation. -/
structure VmTriggerRequest where
  messageId : String
  text : String
  uid : Option String
  conversationHistory : Option (List LlmMessage)

/-- The completion request `processMessage` builds: the prior turns with the
new user text appended, and no model/token override. -/
def processMessageLlmOptions (t : VmTriggerRequest) : LlmRequestOptions :=
  { model := none, maxTokens := none,
    messages := t.conversationHistory.getD [] ++ [⟨"user", t.text⟩] }

/-! The webhook ingest gateway (`monitor.ts`, `readJsonBody` and
`handleFirebaseWebhookRequest`). -/

/-- The fixed request-body cap. -/
def MAX_PAYLOAD_BYTES : Nat := 1024 * 1024

/-- Accumulate the `data` events, aborting as soon as the running total
exceeds the cap (later events are ignored: the resolution guard). -/
def readChunks (maxBytes : Nat) : List String → Nat → Except String (List String)
  | [], _ => Except.ok []
  | c :: rest, total =>
    if maxBytes < total + c.length then Except.error "payload too large"
    else (readChunks maxBytes rest (total + c.length)).map (fun l => c :: l)

/-- Result of `readJsonBody`. -/
inductive BodyReadResult where
  | okBody (value : Json)
  | errBody (msg : String)

/-- Embedding of `readJsonBody`: the request body arrives as `data` chunks
followed by one terminal event (`none` = `end`, `some e` = transport
`error`).  The cap aborts the read; an all-whitespace body is empty; the
rest is handed to `JSON.parse`, whose failure message is returned. -/
def readJsonBody (maxBytes : Nat) (chunks : List String) (terminal : Option String) :
    BodyReadResult :=
  match readChunks maxBytes chunks 0 with
  | Except.error e => BodyReadResult.errBody e
  | Except.ok cs =>
    match terminal with
    | some emsg => BodyReadResult.errBody emsg
    | none =>
      let raw := String.join cs
      if jsTrim raw = "" then BodyReadResult.errBody "empty payload"
      else
        match parseJson raw with
        | Except.ok v => BodyReadResult.okBody v
        | Except.error e => BodyReadResult.errBody e

/-- Everything one inbound HTTP request exposes to the gateway, plus the
environment's completion outcome for the background task. -/
structure HandlerInput where
  method : String
  path : String
  secret : Option String
  authHeader : Option String
  bodyChunks : List String
  bodyTerminal : Option String
  llmResult : LlmResult

/-- Observable side effects of the gateway, in program order. -/
inductive GatewayEvent where
  | bodyRead
  | llmCall
  | deliver (c : DeliveryCall)
deriving Repr, DecidableEq

/-- What the gateway did with a request: not its route, an HTTP reply
(with the side effects performed, in order), or an escaped exception
(the rejected handler promise). -/
inductive HandlerResult where
  | notHandled
  | replied (status : Nat) (body : Json) (events : List GatewayEvent)
  | crashed (err : String) (events : List GatewayEvent)

/-- A `\x7berror: msg\x7d` JSON reply body. -/
def errJson (msg : String) : Json := Json.obj [("error", Json.str msg)]

/-- The validation test on `messageId` and `text`: rejects anything that is
not a non-empty string (the falsy test plus the `typeof` test). -/
def isValidField (v : Option Json) : Bool :=
  match v with
  | some (Json.str s) => s ≠ ""
  | _ => false

/-- Embedding of `handleFirebaseWebhookRequest`: route match, secret check,
bearer comparison, body read, field validation, `200 processing` ack, then
the background `processMessage` deliveries.  Field access on the parsed body
uses JS semantics (`jsGetProp`), so a `null` body's `TypeError` escapes as
`crashed`. -/
def handleFirebaseWebhookRequest (input : HandlerInput) : HandlerResult :=
  if !(input.method = "POST" && input.path = "/api/message") then
    HandlerResult.notHandled
  else
    match input.secret with
    | none => HandlerResult.replied 500 (errJson "Server misconfigured") []
    | some s =>
      if s = "" then HandlerResult.replied 500 (errJson "Server misconfigured") []
      else if !(input.authHeader = some ("Bearer " ++ s)) then
        HandlerResult.replied 401 (errJson "Unauthorized") []
      else
        match readJsonBody MAX_PAYLOAD_BYTES input.bodyChunks input.bodyTerminal with
        | BodyReadResult.errBody e =>
          HandlerResult.replied 400 (errJson e) [GatewayEvent.bodyRead]
        | BodyReadResult.okBody body =>
          match jsGetProp body "messageId" with
          | Except.error e => HandlerResult.crashed e [GatewayEvent.bodyRead]
          | Except.ok mid =>
            if !(isValidField mid) then
              HandlerResult.replied 400 (errJson "Missing or invalid messageId")
                [GatewayEvent.bodyRead]
            else
              match jsGetProp body "text" with
              | Except.error e => HandlerResult.crashed e [GatewayEvent.bodyRead]
              | Except.ok txt =>
                if !(isValidField txt) then
                  HandlerResult.replied 400 (errJson "Missing or invalid text")
                    [GatewayEvent.bodyRead]
                else
                  HandlerResult.replied 200 (Json.obj [("status", Json.str "processing")])
                    ([GatewayEvent.bodyRead, GatewayEvent.llmCall] ++
                      (processMessage (jsToStr mid) input.llmResult).map GatewayEvent.deliver)

/-- Total size of the body chunks. -/
def chunksLen (cs : List String) : Nat := (cs.map String.length).sum

/-! Helper lemmas. -/

/-- On a non-`null` value, JS property access does not throw and agrees with
the safe lookup. -/
theorem jsGetProp_ne_null (body : Json) (k : String) (h : body ≠ Json.null) :
    jsGetProp body k = Except.ok (body.getProp k) := by
  cases body <;> first | exact absurd rfl h | rfl

/-- Once the running total is bound to exceed the cap, the body read aborts
with the oversize error. -/
theorem readChunks_overflow (maxB : Nat) :
    ∀ (chunks : List String) (total : Nat), total ≤ maxB →
      maxB < total + chunksLen chunks →
      readChunks maxB chunks total = Except.error "payload too large" := by
  intro chunks
  induction chunks with
  | nil =>
    intro total hle h
    simp only [chunksLen, List.map_nil, List.sum_nil, Nat.add_zero] at h
    omega
  | cons c rest ih =>
    intro total hle h
    unfold readChunks
    by_cases hc : maxB < total + c.length
    · simp [hc]
    · have hle2 : total + c.length ≤ maxB := by omega
      have hrest : maxB < (total + c.length) + chunksLen rest := by
        simp only [chunksLen, List.map_cons, List.sum_cons] at h ⊢
        omega
      rw [if_neg hc, ih (total + c.length) hle2 hrest]
      rfl

/-- A body within the cap is accumulated in full. -/
theorem readChunks_complete (maxB : Nat) :
    ∀ (chunks : List String) (total : Nat), total + chunksLen chunks ≤ maxB →
      readChunks maxB chunks total = Except.ok chunks := by
  intro chunks
  induction chunks with
  | nil => intro total _; rfl
  | cons c rest ih =>
    intro total h
    simp only [chunksLen, List.map_cons, List.sum_cons] at h
    have hc : ¬ maxB < total + c.length := by omega
    have hrest : (total + c.length) + chunksLen rest ≤ maxB := by
      simp only [chunksLen]; omega
    unfold readChunks
    rw [if_neg hc, ih (total + c.length) hrest]
    rfl

/-- Character-level restatement of the chunk loop: a newline ships the
buffered line through `processLine`, any other character is appended to the
buffer. -/
def stepChar : SSEAcc × List Char → Char → SSEAcc × List Char
  | (acc, buf), c =>
    if c = '\n' then (processLine acc buf, []) else (acc, buf ++ [c])

theorem splitNl_ne_nil (l : List Char) : splitNl l ≠ [] := by
  induction l with
  | nil => simp [splitNl]
  | cons c rest ih =>
    unfold splitNl
    by_cases hc : c = '\n'
    · simp [hc]
    · simp [hc]

theorem splitNl_no_nl (l : List Char) (h : '\n' ∉ l) : splitNl l = [l] := by
  induction l with
  | nil => rfl
  | cons c rest ih =>
    have hc : ¬ c = '\n' := fun hh => h (hh ▸ List.mem_cons_self c rest)
    have hrest : '\n' ∉ rest := fun hh => h (List.mem_cons_of_mem _ hh)
    unfold splitNl
    rw [if_neg hc, ih hrest]
    rfl

theorem splitNl_append_nl (buf cs : List Char) (h : '\n' ∉ buf) :
    splitNl (buf ++ '\n' :: cs) = buf :: splitNl cs := by
  induction buf with
  | nil => simp [splitNl]
  | cons b buf ih =>
    have hb : ¬ b = '\n' := fun hh => h (hh ▸ List.mem_cons_self b buf)
    have hbuf : '\n' ∉ buf := fun hh => h (List.mem_cons_of_mem _ hh)
    rw [List.cons_append]
    conv_lhs => rw [splitNl]
    rw [if_neg hb, ih hbuf, List.headD_cons, List.tail_cons]

theorem getLastD_cons_cons (a b : List Char) (l : List (List Char)) :
    (a :: b :: l).getLastD [] = (b :: l).getLastD [] := by
  simp [List.getLastD_cons]

theorem processChunk_eq_foldl :
    ∀ (chunk : List Char) (acc : SSEAcc) (buf : List Char), '\n' ∉ buf →
      processChunk (acc, buf) chunk = chunk.foldl stepChar (acc, buf) := by
  intro chunk
  induction chunk with
  | nil =>
    intro acc buf h
    simp [processChunk, splitNl_no_nl buf h]
  | cons c cs ih =>
    intro acc buf h
    by_cases hc : c = '\n'
    · subst hc
      have h1 : splitNl (buf ++ '\n' :: cs) = buf :: splitNl cs :=
        splitNl_append_nl buf cs h
      have h2 := ih (processLine acc buf) [] (by simp)
      rw [List.foldl_cons]
      have hstep : stepChar (acc, buf) '\n' = (processLine acc buf, []) := by
        simp [stepChar]
      rw [hstep, ← h2]
      simp only [processChunk, h1, List.nil_append]
      cases hcs : splitNl cs with
      | nil => exact absurd hcs (splitNl_ne_nil cs)
      | cons x xs =>
        rw [List.dropLast_cons₂, List.foldl_cons, getLastD_cons_cons]
    · have hbuf : '\n' ∉ buf ++ [c] := by
        intro hh
        rcases List.mem_append.mp hh with hh | hh
        · exact h hh
        · exact hc (List.mem_singleton.mp hh).symm
      have h2 := ih acc (buf ++ [c]) hbuf
      rw [List.foldl_cons]
      have hstep : stepChar (acc, buf) c = (acc, buf ++ [c]) := by
        simp [stepChar, hc]
      rw [hstep, ← h2]
      simp only [processChunk]
      rw [List.append_cons buf c cs]

theorem foldl_stepChar_no_nl :
    ∀ (l : List Char) (st : SSEAcc × List Char), '\n' ∉ st.2 →
      '\n' ∉ (l.foldl stepChar st).2 := by
  intro l
  induction l with
  | nil => intro st h; exact h
  | cons c cs ih =>
    intro st h
    rw [List.foldl_cons]
    apply ih
    rcases st with ⟨acc, buf⟩
    by_cases hc : c = '\n'
    · simp [stepChar, hc]
    · simp only [stepChar, if_neg hc]
      intro hh
      rcases List.mem_append.mp hh with hh | hh
      · exact h hh
      · exact hc (List.mem_singleton.mp hh).symm

theorem runChunks_eq_foldl :
    ∀ (chunks : List (List Char)) (st : SSEAcc × List Char), '\n' ∉ st.2 →
      runChunks st chunks = chunks.flatten.foldl stepChar st := by
  intro chunks
  induction chunks with
  | nil => intro st _; rfl
  | cons c cs ih =>
    intro st h
    rcases st with ⟨acc, buf⟩
    have h1 : processChunk (acc, buf) c = c.foldl stepChar (acc, buf) :=
      processChunk_eq_foldl c acc buf h
    have h2 : '\n' ∉ (c.foldl stepChar (acc, buf)).2 :=
      foldl_stepChar_no_nl c (acc, buf) h
    calc runChunks (acc, buf) (c :: cs)
        = runChunks (processChunk (acc, buf) c) cs := rfl
      _ = runChunks (c.foldl stepChar (acc, buf)) cs := by rw [h1]
      _ = cs.flatten.foldl stepChar (c.foldl stepChar (acc, buf)) := ih _ h2
      _ = (c ++ cs.flatten).foldl stepChar (acc, buf) := (List.foldl_append ..).symm
      _ = (c :: cs).flatten.foldl stepChar (acc, buf) := by rw [List.flatten_cons]

/-! Claim theorems. -/

/-- C1 (counterexample): when the generation call succeeds with empty
content, the pipeline still makes a delivery call, contradicting the claim
that no delivery call is made at all. -/
theorem c1_counterexample :
    processMessage "msg-1" (LlmResult.success "" none) ≠ [] := by
  decide

/-- C1 (amended): every validated trigger yields exactly one delivery attempt
(success, classified-error, or generic-error) — including when the generation
call succeeds with empty content, in which case the success delivery is made
with an empty content string. -/
theorem c1_exactly_one_delivery (mid : String) (r : LlmResult) :
    (processMessage mid r).length = 1 := by
  cases r with
  | success content usage => rfl
  | failure m b st => cases b <;> rfl

/-- C2: on the dialect-A stream of the claim ("Hello", " world" deltas plus a
`message_start` frame with `input_tokens` and a `message_delta` frame with
`output_tokens`), the parser does return Success with text "Hello world", but
both token fields end up unset: the unconditional top-level-`usage` branch
fires on the `message_delta` frame and overwrites both counters with the
absent `prompt_tokens`/`completion_tokens` fields, so the result carries no
usage at all. -/
theorem c2_dialectA_usage_lost :
    parseSSEStream ⟨true,
      [Except.ok "data: \x7b\"type\":\"message_start\",\"message\":\x7b\"usage\":\x7b\"input_tokens\":10\x7d\x7d\x7d\n\n",
       Except.ok "data: \x7b\"type\":\"content_block_delta\",\"delta\":\x7b\"text\":\"Hello\"\x7d\x7d\n\n",
       Except.ok "data: \x7b\"type\":\"content_block_delta\",\"delta\":\x7b\"text\":\" world\"\x7d\x7d\n\n",
       Except.ok "data: \x7b\"type\":\"message_delta\",\"usage\":\x7b\"output_tokens\":25\x7d\x7d\n\n",
       Except.ok "data: [DONE]\n\n"]⟩ =
      Except.ok (LlmResult.success "Hello world" none) := rfl

/-- C2 (supporting): without the final `message_delta` frame the
`message_start` input-token count does survive, isolating the clobbering to
the top-level-`usage` branch. -/
theorem c2_message_start_tokens_survive :
    parseSSEStream ⟨true,
      [Except.ok "data: \x7b\"type\":\"message_start\",\"message\":\x7b\"usage\":\x7b\"input_tokens\":10\x7d\x7d\x7d\n\n",
       Except.ok "data: \x7b\"type\":\"content_block_delta\",\"delta\":\x7b\"text\":\"Hello\"\x7d\x7d\n\n"]⟩ =
      Except.ok (LlmResult.success "Hello" (some ⟨some 10, none⟩)) := rfl

/-- C4: stream reassembly is invariant under re-chunking — any two chunk
sequences with the same concatenation drive the loop to the same state — and
the claim's concrete frame split across two network chunks is buffered,
parses, and contributes "ok" to the accumulated text exactly once. -/
theorem c4_rechunking_invariant :
    (∀ cs1 cs2 : List (List Char), cs1.flatten = cs2.flatten →
        runChunks (sseInit, []) cs1 = runChunks (sseInit, []) cs2) ∧
    parseSSEStream ⟨true,
        [Except.ok "data: \x7b\"del", Except.ok "ta\":\x7b\"text\":\"ok\"\x7d\x7d\n\n"]⟩ =
      Except.ok (LlmResult.success "ok" none) := by
  constructor
  · intro cs1 cs2 h
    rw [runChunks_eq_foldl cs1 (sseInit, []) (by simp),
      runChunks_eq_foldl cs2 (sseInit, []) (by simp), h]
  · rfl

/-- C4 (witness): on the claim's concrete split, the two-chunk run equals
the single-chunk run of the concatenation. -/
theorem c4_witness :
    (["data: \x7b\"del".toList, "ta\":\x7b\"text\":\"ok\"\x7d\x7d\n\n".toList].flatten =
      [("data: \x7b\"del" ++ "ta\":\x7b\"text\":\"ok\"\x7d\x7d\n\n").toList].flatten) ∧
    runChunks (sseInit, [])
        ["data: \x7b\"del".toList, "ta\":\x7b\"text\":\"ok\"\x7d\x7d\n\n".toList] =
      runChunks (sseInit, [])
        [("data: \x7b\"del" ++ "ta\":\x7b\"text\":\"ok\"\x7d\x7d\n\n").toList] := by
  refine ⟨by decide, c4_rechunking_invariant.1 _ _ (by decide)⟩

/-- C5: `isBillingError` is a pure predicate returning true exactly when the
lowercased message contains one of the five billing substrings. -/
theorem c5_isBillingError_iff (s : String) :
    isBillingError (some s) = true ↔
      ∃ k ∈ billingKeywords, strIncludes (strToLower s) k = true := by
  by_cases hs : s = ""
  · subst hs; decide
  · simp only [isBillingError, if_neg hs, Bool.or_eq_true]
    constructor
    · rintro ((((h | h) | h) | h) | h)
      · exact ⟨"402", by decide, h⟩
      · exact ⟨"insufficient credits", by decide, h⟩
      · exact ⟨"insufficient_credits", by decide, h⟩
      · exact ⟨"billing", by decide, h⟩
      · exact ⟨"payment required", by decide, h⟩
    · rintro ⟨k, hk, hinc⟩
      simp only [billingKeywords, List.mem_cons, List.not_mem_nil, or_false] at hk
      rcases hk with rfl | rfl | rfl | rfl | rfl <;> simp [hinc]

/-- C5 (witness): a message with a billing keyword (case-insensitively) is
classified as billing; one without is not. -/
theorem c5_witness :
    isBillingError (some "Payment Required") = true ∧
    isBillingError (some "rate limited") = false := by
  constructor
  · exact (c5_isBillingError_iff "Payment Required").mpr
      ⟨"payment required", by decide, by decide⟩
  · decide

/-- C9: the delivery call raises exactly when the App Server response is
non-2xx or its ack body does not carry `status: "saved"`; a non-2xx failure
message carries the status and the response text. -/
theorem c9_sendResponse_contract :
    (∀ resp : AppServerHttpResponse,
        sendResponseOutcome resp = Except.ok () ↔
          (respOk resp.status = true ∧ ackStatusSaved resp = true)) ∧
    (∀ resp : AppServerHttpResponse, respOk resp.status = false →
        sendResponseOutcome resp =
          Except.error ("Failed to send response to App Server: "
            ++ toString resp.status ++ " - " ++ resp.bodyText)) := by
  constructor
  · intro resp
    unfold sendResponseOutcome ackStatusSaved
    cases hok : respOk resp.status
    · simp
    · simp only [Bool.not_true, Bool.false_eq_true, if_false]
      cases hp : parseJson resp.bodyText
      · simp [hp]
      · rename_i ack
        cases hg : jsGetProp ack "status"
        · simp [hp, hg]
        · rename_i v
          cases hv : jsIsStr v "saved" <;> simp [hp, hg, hv]
  · intro resp h
    unfold sendResponseOutcome
    rw [h]
    rfl

/-- C9 (witness): a 2xx response acking `saved` returns successfully; a 500
response raises with the status and body text in the message. -/
theorem c9_witness :
    sendResponseOutcome ⟨200, "\x7b\"status\":\"saved\"\x7d"⟩ = Except.ok () ∧
    sendResponseOutcome ⟨500, "oops"⟩ =
      Except.error "Failed to send response to App Server: 500 - oops" := by
  constructor
  · exact (c9_sendResponse_contract.1 ⟨200, "\x7b\"status\":\"saved\"\x7d"⟩).mpr ⟨rfl, rfl⟩
  · exact c9_sendResponse_contract.2 ⟨500, "oops"⟩ rfl

/-- C3: the completion client never throws past its boundary — a thrown
fetch is captured and classified by the billing heuristics; a non-2xx
response becomes a Failure whose message comes from the JSON error body when
it carries one (fallback "LLM request failed: status") and whose
classification is Billing iff the status is 402 or the message matches the
billing heuristics; a thrown stream read is captured and classified by the
billing heuristics. -/
theorem c3_callLlmProxy_total_contract :
    (∀ e : String, callLlmProxy (Except.error e) =
        LlmResult.failure e (isBillingError (some e)) none) ∧
    (∀ resp : FetchResponse, respOk resp.status = false →
        callLlmProxy (Except.ok resp) =
          LlmResult.failure (llmProxyErrorMessage resp)
            (resp.status == 402 || isBillingError (some (llmProxyErrorMessage resp)))
            (some resp.status)) ∧
    (∀ (resp : FetchResponse) (m : String),
        jsonErrorMessageField resp.bodyText = some m → m ≠ "" →
        llmProxyErrorMessage resp = m) ∧
    (∀ resp : FetchResponse, jsonErrorMessageField resp.bodyText = none →
        llmProxyErrorMessage resp = "LLM request failed: " ++ toString resp.status) ∧
    (∀ (resp : FetchResponse) (e : String), respOk resp.status = true →
        resp.stream.hasBody = true → chunkEvents resp.stream.reads = Except.error e →
        callLlmProxy (Except.ok resp) =
          LlmResult.failure e (isBillingError (some e)) none) := by
  refine ⟨fun e => rfl, ?_, ?_, ?_, ?_⟩
  · intro resp h
    simp [callLlmProxy, h]
  · intro resp m hm hne
    simp [llmProxyErrorMessage, hm, hne]
  · intro resp h
    unfold llmProxyErrorMessage
    rw [h]
  · intro resp e hok hbody hev
    simp [callLlmProxy, hok, parseSSEStream, hbody, hev, Except.map]

/-- C3 (witness): a 402 with an unparseable body gets the fallback message
and the Billing classification; a parseable error body supplies the message;
a thrown fetch rejection and a thrown stream read are both captured and
classified by the billing heuristics. -/
theorem c3_witness :
    respOk 402 = false ∧
    callLlmProxy (Except.ok ⟨402, "nope", ⟨true, []⟩⟩) =
      LlmResult.failure "LLM request failed: 402" true (some 402) ∧
    llmProxyErrorMessage ⟨402, "\x7b\"error\":\x7b\"message\":\"Insufficient credits\"\x7d\x7d", ⟨true, []⟩⟩ =
      "Insufficient credits" ∧
    callLlmProxy (Except.error "fetch failed: billing problem") =
      LlmResult.failure "fetch failed: billing problem" true none ∧
    callLlmProxy (Except.ok ⟨200, "", ⟨true, [Except.error "read timeout"]⟩⟩) =
      LlmResult.failure "read timeout" false none := by
  refine ⟨rfl, ?_, ?_, ?_, ?_⟩
  · exact c3_callLlmProxy_total_contract.2.1 ⟨402, "nope", ⟨true, []⟩⟩ rfl
  · exact c3_callLlmProxy_total_contract.2.2.1
      ⟨402, "\x7b\"error\":\x7b\"message\":\"Insufficient credits\"\x7d\x7d", ⟨true, []⟩⟩
      "Insufficient credits" rfl (by decide)
  · exact c3_callLlmProxy_total_contract.1 "fetch failed: billing problem"
  · exact c3_callLlmProxy_total_contract.2.2.2.2
      ⟨200, "", ⟨true, [Except.error "read timeout"]⟩⟩ "read timeout" rfl rfl rfl

/-- C6: the gateway answers 500 (secret unconfigured) or 401 (bearer
mismatch or absence) with an empty side-effect trace: the request body is
neither read nor parsed before authentication succeeds. -/
theorem c6_auth_before_body_read :
    (∀ input : HandlerInput, input.method = "POST" → input.path = "/api/message" →
        (input.secret = none ∨ input.secret = some "") →
        handleFirebaseWebhookRequest input =
          HandlerResult.replied 500 (errJson "Server misconfigured") []) ∧
    (∀ (input : HandlerInput) (s : String), input.method = "POST" →
        input.path = "/api/message" → input.secret = some s → s ≠ "" →
        input.authHeader ≠ some ("Bearer " ++ s) →
        handleFirebaseWebhookRequest input =
          HandlerResult.replied 401 (errJson "Unauthorized") []) := by
  constructor
  · rintro input hm hp (hs | hs) <;>
      simp [handleFirebaseWebhookRequest, hm, hp, hs]
  · intro input s hm hp hs hne hauth
    simp [handleFirebaseWebhookRequest, hm, hp, hs, hne, hauth]

/-- C6 (witness): a missing secret yields the 500 reply with no body events;
a wrong bearer yields the 401 reply with no body events. -/
theorem c6_witness :
    handleFirebaseWebhookRequest
      ⟨"POST", "/api/message", none, some "Bearer x", ["ignored"], none,
        LlmResult.success "x" none⟩ =
      HandlerResult.replied 500 (errJson "Server misconfigured") [] ∧
    handleFirebaseWebhookRequest
      ⟨"POST", "/api/message", some "sec", some "Bearer wrong", ["ignored"], none,
        LlmResult.success "x" none⟩ =
      HandlerResult.replied 401 (errJson "Unauthorized") [] := by
  constructor
  · exact c6_auth_before_body_read.1
      ⟨"POST", "/api/message", none, some "Bearer x", ["ignored"], none,
        LlmResult.success "x" none⟩ rfl rfl (Or.inl rfl)
  · exact c6_auth_before_body_read.2
      ⟨"POST", "/api/message", some "sec", some "Bearer wrong", ["ignored"], none,
        LlmResult.success "x" none⟩ "sec" rfl rfl rfl (by decide) (by decide)

/-- C7: for authenticated requests, body reading fails as specified — a body
over the fixed 1 MiB cap aborts into 400 "payload too large" with no
generation call, an all-whitespace (empty) body yields 400 "empty payload",
and malformed JSON yields 400 carrying the parser's error text; in every
case the generation client is never invoked (the event trace stops at the
body read). -/
theorem c7_body_read_failures :
    (∀ (input : HandlerInput) (s : String), input.method = "POST" →
        input.path = "/api/message" → input.secret = some s → s ≠ "" →
        input.authHeader = some ("Bearer " ++ s) →
        MAX_PAYLOAD_BYTES < chunksLen input.bodyChunks →
        handleFirebaseWebhookRequest input =
          HandlerResult.replied 400 (errJson "payload too large")
            [GatewayEvent.bodyRead]) ∧
    (∀ (input : HandlerInput) (s : String), input.method = "POST" →
        input.path = "/api/message" → input.secret = some s → s ≠ "" →
        input.authHeader = some ("Bearer " ++ s) →
        chunksLen input.bodyChunks ≤ MAX_PAYLOAD_BYTES →
        input.bodyTerminal = none →
        jsTrim (String.join input.bodyChunks) = "" →
        handleFirebaseWebhookRequest input =
          HandlerResult.replied 400 (errJson "empty payload")
            [GatewayEvent.bodyRead]) ∧
    (∀ (input : HandlerInput) (s e : String), input.method = "POST" →
        input.path = "/api/message" → input.secret = some s → s ≠ "" →
        input.authHeader = some ("Bearer " ++ s) →
        chunksLen input.bodyChunks ≤ MAX_PAYLOAD_BYTES →
        input.bodyTerminal = none →
        jsTrim (String.join input.bodyChunks) ≠ "" →
        parseJson (String.join input.bodyChunks) = Except.error e →
        handleFirebaseWebhookRequest input =
          HandlerResult.replied 400 (errJson e) [GatewayEvent.bodyRead]) := by
  refine ⟨?_, ?_, ?_⟩
  · intro input s hm hp hs hne hauth hover
    have hread := readChunks_overflow MAX_PAYLOAD_BYTES input.bodyChunks 0
      (Nat.zero_le _) (by simpa using hover)
    simp [handleFirebaseWebhookRequest, hm, hp, hs, hne, hauth, readJsonBody, hread]
  · intro input s hm hp hs hne hauth hle hterm htrim
    have hread := readChunks_complete MAX_PAYLOAD_BYTES input.bodyChunks 0
      (by simpa using hle)
    simp [handleFirebaseWebhookRequest, hm, hp, hs, hne, hauth, readJsonBody, hread,
      hterm, htrim]
  · intro input s e hm hp hs hne hauth hle hterm htrim hparse
    have hread := readChunks_complete MAX_PAYLOAD_BYTES input.bodyChunks 0
      (by simpa using hle)
    simp [handleFirebaseWebhookRequest, hm, hp, hs, hne, hauth, readJsonBody, hread,
      hterm, htrim, hparse]

/-- C7 (witness): an oversized single-chunk body triggers the oversize 400,
a whitespace body the empty-payload 400, and a non-JSON body the parser's
error — all without a generation call. -/
theorem c7_witness :
    MAX_PAYLOAD_BYTES < chunksLen (List.replicate 1048577 "a") ∧
    handleFirebaseWebhookRequest
      ⟨"POST", "/api/message", some "sec", some "Bearer sec",
        List.replicate 1048577 "a", none, LlmResult.success "x" none⟩ =
      HandlerResult.replied 400 (errJson "payload too large") [GatewayEvent.bodyRead] ∧
    handleFirebaseWebhookRequest
      ⟨"POST", "/api/message", some "sec", some "Bearer sec", ["  "], none,
        LlmResult.success "x" none⟩ =
      HandlerResult.replied 400 (errJson "empty payload") [GatewayEvent.bodyRead] ∧
    handleFirebaseWebhookRequest
      ⟨"POST", "/api/message", some "sec", some "Bearer sec", ["nope"], none,
        LlmResult.success "x" none⟩ =
      HandlerResult.replied 400 (errJson "Unexpected token in JSON: nope")
        [GatewayEvent.bodyRead] := by
  have hlen : chunksLen (List.replicate 1048577 "a") = 1048577 := by
    unfold chunksLen
    rw [List.map_replicate]
    have h1 : String.length "a" = 1 := rfl
    rw [h1, List.sum_replicate, smul_eq_mul, mul_one]
  have hover : MAX_PAYLOAD_BYTES < chunksLen (List.replicate 1048577 "a") := by
    rw [hlen]; norm_num [MAX_PAYLOAD_BYTES]
  refine ⟨hover, ?_, ?_, ?_⟩
  · exact c7_body_read_failures.1
      ⟨"POST", "/api/message", some "sec", some "Bearer sec",
        List.replicate 1048577 "a", none, LlmResult.success "x" none⟩
      "sec" rfl rfl rfl (by decide) rfl hover
  · exact c7_body_read_failures.2.1
      ⟨"POST", "/api/message", some "sec", some "Bearer sec", ["  "], none,
        LlmResult.success "x" none⟩
      "sec" rfl rfl rfl (by decide) rfl (by decide) rfl rfl
  · exact c7_body_read_failures.2.2
      ⟨"POST", "/api/message", some "sec", some "Bearer sec", ["nope"], none,
        LlmResult.success "x" none⟩
      "sec" "Unexpected token in JSON: nope" rfl rfl rfl (by decide) rfl (by decide)
      rfl (by decide) rfl

/-- C8 (counterexample): a request whose parsed body is JSON null is
authenticated and parsed and has no messageId, yet the gateway does not
return 400 mentioning the field — reading `body.messageId` throws a
TypeError that escapes the handler. -/
theorem c8_counterexample :
    handleFirebaseWebhookRequest
      ⟨"POST", "/api/message", some "sec", some "Bearer sec", ["null"], none,
        LlmResult.success "x" none⟩ =
      HandlerResult.crashed
        "TypeError: Cannot read properties of null (reading messageId)"
        [GatewayEvent.bodyRead] := rfl

/-- C8 (amended): for every authenticated request whose body parses to a
non-null JSON value, a missing or non-non-empty-string messageId yields 400
with an error mentioning "messageId", and (messageId valid) a missing or
non-non-empty-string text yields 400 mentioning "text"; in both cases the
event trace stops at the body read, so no generation or delivery call is
made.  Validation runs strictly after authentication and body parsing (its
hypotheses). -/
theorem c8_field_validation :
    (strIncludes "Missing or invalid messageId" "messageId" = true) ∧
    (strIncludes "Missing or invalid text" "text" = true) ∧
    (∀ (input : HandlerInput) (s : String) (body : Json), input.method = "POST" →
        input.path = "/api/message" → input.secret = some s → s ≠ "" →
        input.authHeader = some ("Bearer " ++ s) →
        readJsonBody MAX_PAYLOAD_BYTES input.bodyChunks input.bodyTerminal =
          BodyReadResult.okBody body →
        body ≠ Json.null →
        (isValidField (body.getProp "messageId") = false →
          handleFirebaseWebhookRequest input =
            HandlerResult.replied 400 (errJson "Missing or invalid messageId")
              [GatewayEvent.bodyRead]) ∧
        (isValidField (body.getProp "messageId") = true →
          isValidField (body.getProp "text") = false →
          handleFirebaseWebhookRequest input =
            HandlerResult.replied 400 (errJson "Missing or invalid text")
              [GatewayEvent.bodyRead])) := by
  refine ⟨by decide, by decide, ?_⟩
  intro input s body hm hp hs hne hauth hbody hnull
  constructor
  · intro hmid
    simp [handleFirebaseWebhookRequest, hm, hp, hs, hne, hauth, hbody,
      jsGetProp_ne_null body "messageId" hnull, hmid]
  · intro hmid htext
    simp [handleFirebaseWebhookRequest, hm, hp, hs, hne, hauth, hbody,
      jsGetProp_ne_null body "messageId" hnull, jsGetProp_ne_null body "text" hnull,
      hmid, htext]

/-- C8 (witness): an authenticated request with body missing the messageId
field gets the 400 mentioning messageId; one with a valid messageId but a
number in text gets the 400 mentioning text. -/
theorem c8_witness :
    handleFirebaseWebhookRequest
      ⟨"POST", "/api/message", some "sec", some "Bearer sec",
        ["\x7b\"text\":\"hi\"\x7d"], none, LlmResult.success "x" none⟩ =
      HandlerResult.replied 400 (errJson "Missing or invalid messageId")
        [GatewayEvent.bodyRead] ∧
    handleFirebaseWebhookRequest
      ⟨"POST", "/api/message", some "sec", some "Bearer sec",
        ["\x7b\"messageId\":\"m1\",\"text\":5\x7d"], none, LlmResult.success "x" none⟩ =
      HandlerResult.replied 400 (errJson "Missing or invalid text")
        [GatewayEvent.bodyRead] := by
  constructor
  · exact ((c8_field_validation.2.2
      ⟨"POST", "/api/message", some "sec", some "Bearer sec",
        ["\x7b\"text\":\"hi\"\x7d"], none, LlmResult.success "x" none⟩
      "sec" (Json.obj [("text", Json.str "hi")]) rfl rfl rfl (by decide) rfl rfl
      (by intro h; cases h)).1) rfl
  · exact ((c8_field_validation.2.2
      ⟨"POST", "/api/message", some "sec", some "Bearer sec",
        ["\x7b\"messageId\":\"m1\",\"text\":5\x7d"], none, LlmResult.success "x" none⟩
      "sec" (Json.obj [("messageId", Json.str "m1"), ("text", Json.num 5)]) rfl rfl rfl
      (by decide) rfl rfl (by intro h; cases h)).2) rfl rfl

/-- C10: for every successful generation outcome the delivery metadata
reports the fixed model string "claude-sonnet-4-20250514" and the outcome's
output-token count, while the completion request `processMessage` builds
carries no model override, so the client's default model
"claude-haiku-4-5-20251001" — a different identifier — is what is actually
requested. -/
theorem c10_metadata_fixed_model :
    (∀ (mid content : String) (usage : Option LlmUsage),
        processMessage mid (LlmResult.success content usage) =
          [DeliveryCall.attempt mid content
            (some ⟨none, none, some "claude-sonnet-4-20250514",
              usage.bind LlmUsage.outputTokens⟩)]) ∧
    (∀ t : VmTriggerRequest,
        requestedModel (processMessageLlmOptions t) = "claude-haiku-4-5-20251001") ∧
    (("claude-sonnet-4-20250514" == defaultLlmModel) = false) := by
  exact ⟨fun mid content usage => rfl, fun t => rfl, by decide⟩

/-- C10 (witness): concrete instance — the delivered metadata names the
sonnet identifier and copies the output-token count, while the request built
for the client carries the default haiku identifier. -/
theorem c10_witness :
    processMessage "m1" (LlmResult.success "Hi" (some ⟨some 3, some 7⟩)) =
      [DeliveryCall.attempt "m1" "Hi"
        (some ⟨none, none, some "claude-sonnet-4-20250514", some 7⟩)] ∧
    requestedModel (processMessageLlmOptions ⟨"m1", "Hello", none, none⟩) =
      "claude-haiku-4-5-20251001" := by
  exact ⟨c10_metadata_fixed_model.1 "m1" "Hi" (some ⟨some 3, some 7⟩),
    c10_metadata_fixed_model.2.1 ⟨"m1", "Hello", none, none⟩⟩

end OpenClaw
